import Mathlib

/-!
Shallow embedding of `src/io/parse_html.py`: the Telegram chat-export
parser.  The Python module has two functions, `parse_datetime` (timestamp
normalization) and `parse_telegram_messages` (message extraction over a
BeautifulSoup HTML tree), plus the pydantic model `TelegramMessage`.

Conventions of the embedding:
* Python `datetime` values are modelled by `NaiveDT` (naive wall-clock
  fields) and `AwareDT` (seconds since the Unix epoch plus the attached
  zone's UTC offset in seconds).
* A Python computation that may raise an uncaught exception is modelled
  by `PyResult`: `ok` for normal return, `exn name` for an escaping
  exception of the named class.
* The HTML tree handed to the extractor by BeautifulSoup is modelled by
  the mutual inductives `Node`/`NodeList`.
* `\s` of Python regexes and `str.strip` whitespace are modelled by the
  ASCII whitespace characters (space, tab, newline, carriage return,
  vertical tab, form feed); exotic Unicode whitespace is not modelled.
-/

/-- Naive (zone-less) date-time, the result of `datetime.strptime`. -/
structure NaiveDT where
  year : Nat
  month : Nat
  day : Nat
  hour : Nat
  minute : Nat
  second : Nat
deriving DecidableEq

/-- Zone-aware instant: absolute seconds since 1970-01-01T00:00:00Z plus
the UTC offset (in seconds) of the `tzinfo` attached to the value. -/
structure AwareDT where
  epochSec : Int
  tzOffsetSec : Int
deriving DecidableEq

/-- Outcome of running a Python function: a normal return, or an
exception of the given class escaping it. -/
inductive PyResult (α : Type) where
  | ok (a : α)
  | exn (name : String)
deriving DecidableEq

/-- Returns `true` iff the computation returned normally. -/
def PyResult.isOk {α : Type} : PyResult α → Bool
  | .ok _ => true
  | .exn _ => false

/-- The four capture groups of the regex in `parse_datetime`:
`(\d{2}\.\d{2}\.\d{4})`, `(\d{2}:\d{2}:\d{2})`, `([+-]\d{2})`, `(\d{2})`. -/
structure DTGroups where
  datePart : String
  timePart : String
  tzHours : String
  tzMinutes : String
deriving DecidableEq

/-- ASCII fragment of Python's regex class `\s` (and of `str.strip`):
space, tab, newline, carriage return, vertical tab, form feed. -/
def isPySpace (c : Char) : Bool :=
  c = ' ' || c = '\t' || c = '\n' || c = '\r' || c = '\x0b' || c = '\x0c'

/-- Regex `\d{n}`: consume exactly `n` ASCII digits, returning them and the
remaining input. -/
def takeDigits : Nat → List Char → Option (List Char × List Char)
  | 0, cs => some ([], cs)
  | _ + 1, [] => none
  | n + 1, c :: cs =>
    if c.isDigit then
      match takeDigits n cs with
      | some (ds, rest) => some (c :: ds, rest)
      | none => none
    else none

/-- A literal character of the regex. -/
def takeLit : Char → List Char → Option (List Char)
  | _, [] => none
  | x, c :: cs => if c = x then some cs else none

/-- Regex `[+-]`: a single sign character. -/
def takeSign : List Char → Option (Char × List Char)
  | [] => none
  | c :: cs => if c = '+' || c = '-' then some (c, cs) else none

/-- Regex `\s+` with maximal munch.  In the regex of `parse_datetime` every
`\s+` is followed by a non-whitespace requirement (a digit or the
literal `U`), so greedy matching without backtracking is exact. -/
def takeSpaces1 : List Char → Option (List Char)
  | [] => none
  | c :: cs => if isPySpace c then some (cs.dropWhile isPySpace) else none

/-- The regex fragment `\d{2}\.\d{2}\.\d{4}` (group 1), returning the
day, month and year digit runs and the remaining input. -/
def parseDateG (cs : List Char) : Option ((List Char × List Char × List Char) × List Char) :=
  match takeDigits 2 cs with
  | none => none
  | some (d, r1) =>
    match takeLit '.' r1 with
    | none => none
    | some r2 =>
      match takeDigits 2 r2 with
      | none => none
      | some (mo, r3) =>
        match takeLit '.' r3 with
        | none => none
        | some r4 =>
          match takeDigits 4 r4 with
          | none => none
          | some (y, r5) => some ((d, mo, y), r5)

/-- The regex fragment `\d{2}:\d{2}:\d{2}` (group 2), returning the
hour, minute and second digit runs and the remaining input. -/
def parseTimeG (cs : List Char) : Option ((List Char × List Char × List Char) × List Char) :=
  match takeDigits 2 cs with
  | none => none
  | some (h, r1) =>
    match takeLit ':' r1 with
    | none => none
    | some r2 =>
      match takeDigits 2 r2 with
      | none => none
      | some (mi, r3) =>
        match takeLit ':' r3 with
        | none => none
        | some r4 =>
          match takeDigits 2 r4 with
          | none => none
          | some (s, r5) => some ((h, mi, s), r5)

/-- The regex fragment `UTC([+-]\d{2}):(\d{2})` (groups 3 and 4),
returning the sign, offset-hour digits, offset-minute digits and the
remaining input. -/
def parseTzG (cs : List Char) : Option ((Char × List Char × List Char) × List Char) :=
  match takeLit 'U' cs with
  | none => none
  | some r1 =>
    match takeLit 'T' r1 with
    | none => none
    | some r2 =>
      match takeLit 'C' r2 with
      | none => none
      | some r3 =>
        match takeSign r3 with
        | none => none
        | some (sg, r4) =>
          match takeDigits 2 r4 with
          | none => none
          | some (h, r5) =>
            match takeLit ':' r5 with
            | none => none
            | some r6 =>
              match takeDigits 2 r6 with
              | none => none
              | some (m, r7) => some ((sg, h, m), r7)

/-- Model of `re.match` of the pattern
`(\d{2}\.\d{2}\.\d{4})\s+(\d{2}:\d{2}:\d{2})\s+UTC([+-]\d{2}):(\d{2})`.
`re.match` anchors at the start of the string only, so the unconsumed
suffix is returned alongside the groups and may be arbitrary. -/
def reMatchDT (cs : List Char) : Option (DTGroups × List Char) :=
  match parseDateG cs with
  | none => none
  | some ((d, mo, y), r1) =>
    match takeSpaces1 r1 with
    | none => none
    | some r2 =>
      match parseTimeG r2 with
      | none => none
      | some ((h, mi, s), r3) =>
        match takeSpaces1 r3 with
        | none => none
        | some r4 =>
          match parseTzG r4 with
          | none => none
          | some ((sg, zh, zm), r5) =>
            some ({ datePart := String.mk (d ++ '.' :: mo ++ '.' :: y),
                    timePart := String.mk (h ++ ':' :: mi ++ ':' :: s),
                    tzHours := String.mk (sg :: zh),
                    tzMinutes := String.mk zm }, r5)

/-- Decimal value of a digit run. -/
def digitsToNat (ds : List Char) : Nat :=
  ds.foldl (fun a c => a * 10 + (c.toNat - 48)) 0

/-- Gregorian leap-year test, as in Python's `calendar`/`datetime`. -/
def isLeapYear (y : Nat) : Bool :=
  (y % 4 == 0 && y % 100 != 0) || y % 400 == 0

/-- Days in a month of the proleptic Gregorian calendar. -/
def daysInMonth (y m : Nat) : Nat :=
  if m = 2 then (if isLeapYear y then 29 else 28)
  else if m = 4 || m = 6 || m = 9 || m = 11 then 30
  else 31

/-- The validity constraints that `datetime.strptime`/`datetime.__new__`
enforce for `%d.%m.%Y %H:%M:%S` input (violations raise `ValueError`). -/
def datetime_valid (y mo d h mi s : Nat) : Bool :=
  1 ≤ y && y ≤ 9999 && 1 ≤ mo && mo ≤ 12 && 1 ≤ d && d ≤ daysInMonth y mo
    && h ≤ 23 && mi ≤ 59 && s ≤ 59

/-- Model of `datetime.strptime(f"{date_part} {time_part}", "%d.%m.%Y %H:%M:%S")`,
restricted to the argument shapes the call site can produce: both parts
are regex groups of exact field widths (`DD.MM.YYYY` and `HH:MM:SS`), so
the one-or-two-digit flexibility of `%d`/`%m`/`%H`/`%M`/`%S` never comes
into play.  Returns `none` where Python raises `ValueError` (a field out
of range or a non-calendar date). -/
def strptime_dmy_hms (dateStr timeStr : String) : Option NaiveDT :=
  match parseDateG dateStr.toList, parseTimeG timeStr.toList with
  | some ((dcs, mocs, ycs), []), some ((hcs, mics, scs), []) =>
    let y := digitsToNat ycs
    let mo := digitsToNat mocs
    let d := digitsToNat dcs
    let h := digitsToNat hcs
    let mi := digitsToNat mics
    let s := digitsToNat scs
    if datetime_valid y mo d h mi s then some ⟨y, mo, d, h, mi, s⟩ else none
  | _, _ => none

/-- Model of `int()` on the strings the regex groups can produce: an optional
single sign followed by ASCII digits. -/
def pyInt (str : String) : Option Int :=
  match str.toList with
  | [] => none
  | c :: ds =>
    if c = '+' then
      if ds ≠ [] && ds.all Char.isDigit then some (digitsToNat ds : Int) else none
    else if c = '-' then
      if ds ≠ [] && ds.all Char.isDigit then some (-(digitsToNat ds : Int)) else none
    else if (c :: ds).all Char.isDigit then some (digitsToNat (c :: ds) : Int)
    else none

/-- Days from year 1 to the start of year `y` (proleptic Gregorian). -/
def daysBeforeYear (y : Nat) : Nat :=
  (y - 1) * 365 + (y - 1) / 4 - (y - 1) / 100 + (y - 1) / 400

/-- Days from the start of year `y` to the start of month `m`. -/
def daysBeforeMonth (y m : Nat) : Nat :=
  (List.range (m - 1)).foldl (fun a i => a + daysInMonth y (i + 1)) 0

/-- Ordinal day number of a civil date (day 0 = 0001-01-01). -/
def toOrdinalDay (y m d : Nat) : Nat :=
  daysBeforeYear y + daysBeforeMonth y m + (d - 1)

/-- Ordinal day number of the Unix epoch, 1970-01-01. -/
def epochOrdinal : Nat := toOrdinalDay 1970 1 1

/-- Seconds since the Unix epoch of a naive date-time read as UTC. -/
def naiveToSec (n : NaiveDT) : Int :=
  ((toOrdinalDay n.year n.month n.day : Int) - (epochOrdinal : Int)) * 86400
    + (n.hour : Int) * 3600 + (n.minute : Int) * 60 + (n.second : Int)

/-- Convenience: the epoch seconds of a UTC civil date-time, used to
state expected instants such as `2025-01-02T15:43:24Z`. -/
def utcSec (y m d hh mm ss : Nat) : Int :=
  naiveToSec ⟨y, m, d, hh, mm, ss⟩

/-- The IANA key `Etc/GMT{n:+d}` exists exactly for `-14 ≤ n ≤ 12`;
outside this range `ZoneInfo` raises `ZoneInfoNotFoundError`. -/
def etcGmtZoneExists (n : Int) : Bool :=
  -14 ≤ n && n ≤ 12

/-- Embedding of `parse_datetime` of `src/io/parse_html.py`:

* match the regex against the input (`re.match`: anchored at the start,
  arbitrary trailing characters allowed);
* `strptime` the date and time groups (a `ValueError` is caught by the
  function's `except (ValueError, TypeError)` clause and yields `None`);
* compute `tz_offset = int(tz_hours)*3600 + int(tz_minutes)*60` — the
  source computes this value but never uses it;
* build `ZoneInfo(f"Etc/GMT{-int(tz_hours):+d}")` — from the hour group
  alone; the key is missing when `-int(tz_hours)` lies outside
  `[-14, 12]`, and the resulting `ZoneInfoNotFoundError` (a subclass of
  `KeyError`) is NOT caught by the `except (ValueError, TypeError)`
  clause, so it escapes;
* `astimezone(ZoneInfo("UTC"))`: the `Etc/GMT{n}` zone has fixed UTC
  offset `-n` hours (POSIX-inverted sign), i.e. `int(tz_hours)` hours
  here, so the instant is the naive local time minus that many hours and
  the attached zone of the result is UTC (offset 0). -/
def parse_datetime (date_str : String) : PyResult (Option AwareDT) :=
  match reMatchDT date_str.toList with
  | none => .ok none
  | some (g, _) =>
    match strptime_dmy_hms g.datePart g.timePart with
    | none => .ok none
    | some local_dt =>
      match pyInt g.tzHours, pyInt g.tzMinutes with
      | some h, some m =>
        let _tz_offset : Int := h * 3600 + m * 60
        if etcGmtZoneExists (-h) then
          .ok (some { epochSec := naiveToSec local_dt - h * 3600, tzOffsetSec := 0 })
        else
          .exn "ZoneInfoNotFoundError"
      | _, _ => .ok none

/-! ## HTML tree and the message extractor -/

mutual

/-- A node of the BeautifulSoup document tree handed to
`parse_telegram_messages`: an element with a tag name, its attribute
list (as written in the markup; `attrLookup` keeps the first occurrence
of a duplicated attribute, as lxml does), and its children — or a text
node. -/
inductive Node where
  | elem (tag : String) (attrs : List (String × String)) (children : NodeList)
  | text (s : String)

/-- Children of an element, as a specialised list so that the tree
recursions below are structural. -/
inductive NodeList where
  | nil
  | cons (n : Node) (ns : NodeList)

end

/-- Build a `NodeList` from a plain list (notation helper). -/
def nl : List Node → NodeList
  | [] => .nil
  | n :: ns => .cons n (nl ns)

mutual

/-- All proper descendants of a node in document (pre-)order — the
iteration order of BeautifulSoup's `find_all`/`find`. -/
def descendants : Node → List Node
  | .text _ => []
  | .elem _ _ cs => descendantsL cs

def descendantsL : NodeList → List Node
  | .nil => []
  | .cons c cs => c :: descendants c ++ descendantsL cs

end

/-- Attribute lookup on an attribute list (first occurrence wins). -/
def attrLookup : List (String × String) → String → Option String
  | [], _ => none
  | (k, v) :: rest, key => if k = key then some v else attrLookup rest key

/-- Model of `tag.get(key)`: attribute of an element node, `None` on a text node
or a missing attribute. -/
def nodeAttr (n : Node) (key : String) : Option String :=
  match n with
  | .elem _ attrs _ => attrLookup attrs key
  | .text _ => none

/-- Split a character list at whitespace (keeping empty chunks). -/
def splitWsChars : List Char → List (List Char)
  | [] => [[]]
  | c :: cs =>
    match splitWsChars cs with
    | [] => [[]]
    | w :: ws => if isPySpace c then [] :: w :: ws else (c :: w) :: ws

/-- Python `str.split()` on whitespace: BeautifulSoup stores the `class`
attribute as the whitespace-separated word list of its value. -/
def splitWs (s : String) : List String :=
  ((splitWsChars s.toList).map String.mk).filter (fun w => w ≠ "")

/-- Model of `" ".join(words)`. -/
def joinSpace : List String → String
  | [] => ""
  | [w] => w
  | w :: ws => w ++ " " ++ joinSpace ws

/-- BeautifulSoup's `class_` filter for a string query: the query
matches if it equals one of the element's classes, or if it equals the
space-joined full class list (this is how the two multi-word selectors
`"message default clearfix"` and `"pull_right date details"` match). -/
def matchesClassQuery (classAttr query : String) : Bool :=
  let words := splitWs classAttr
  words.contains query || query = joinSpace words

/-- The `find`/`find_all` predicate `("div", class_=query)`. -/
def isDivWithClass (query : String) : Node → Bool
  | .elem tag attrs _ =>
    tag = "div" &&
      (match attrLookup attrs "class" with
       | some v => matchesClassQuery v query
       | none => false)
  | .text _ => false

/-- The `find_all` filter of `parse_telegram_messages`:
`("div", class_=["message default clearfix", "message service"])`. -/
def isMessageDiv (n : Node) : Bool :=
  isDivWithClass "message default clearfix" n || isDivWithClass "message service" n

/-- Model of `message.find("div", class_=query)`: first matching descendant in
document order. -/
def findFirst (p : Node → Bool) (n : Node) : Option Node :=
  (descendants n).find? p

/-- Model of `soup.find_all("div", class_=[...])`: all matching nodes of the
document in document order. -/
def messageBlocks (doc : Node) : List Node :=
  (descendants doc).filter isMessageDiv

/-- Python `str.strip()` (ASCII whitespace fragment). -/
def pyStrip (s : String) : String :=
  String.mk (((s.toList.dropWhile isPySpace).reverse.dropWhile isPySpace).reverse)

mutual

/-- Observable effect on the tree of the extractor's text pipeline
`str(text_div)` → `re.sub(r"<br\s*/>", "\n", ...)` → re-parse →
`.text`: serialization renders each (void, hence childless) `br`
element as `<br/>`, which the substitution turns into a literal
newline; every other tag round-trips through serialize/re-parse and is
then stripped by `.text`; character data is entity-escaped on the way
out and unescaped on the way back, so it is preserved exactly.  Net:
`br` elements become `"\n"`, all other markup disappears, text nodes
are concatenated unchanged in document order. -/
def nodeTextBr : Node → String
  | .text s => s
  | .elem t _ cs => if t = "br" then "\n" else listTextBr cs

def listTextBr : NodeList → String
  | .nil => ""
  | .cons c cs => nodeTextBr c ++ listTextBr cs

end

mutual

/-- Model of `tag.get_text(strip=True)`: concatenation of the individually
stripped text descendants in document order. -/
def nodeTextStrip : Node → String
  | .text s => pyStrip s
  | .elem _ _ cs => listTextStrip cs

def listTextStrip : NodeList → String
  | .nil => ""
  | .cons c cs => nodeTextStrip c ++ listTextStrip cs

end

/-- The pydantic record `TelegramMessage` (field `message_id : str` is
required and non-optional; `datetime` defaults to `None`). -/
structure TelegramMessage where
  message_id : String
  datetime : Option AwareDT
  text : String
deriving DecidableEq

/-- The timestamp step of the extraction loop: locate the
`"pull_right date details"` div; if present, read its `title` attribute
with default `""`; parse it unless empty.  An exception escaping
`parse_datetime` propagates out of the loop. -/
def blockDatetime (message : Node) : PyResult (Option AwareDT) :=
  match findFirst (isDivWithClass "pull_right date details") message with
  | none => .ok none
  | some date_div =>
    let date_str := (nodeAttr date_div "title").getD ""
    if date_str = "" then .ok none else parse_datetime date_str

/-- The text step of the extraction loop: prefer the `"text"` div
(break-marker pipeline), else the `"body details"` div of a service
message (stripped text), else the empty string. -/
def blockText (message : Node) : String :=
  match findFirst (isDivWithClass "text") message with
  | some text_div => nodeTextBr text_div
  | none =>
    match findFirst (isDivWithClass "body details") message with
    | some body_details => nodeTextStrip body_details
    | none => ""

/-- One iteration of the extraction loop: read `message.get("id")`,
extract the timestamp and the text, then construct
`TelegramMessage(message_id=..., datetime=..., text=...)`.  pydantic
rejects `None` for the required `str` field `message_id`, so a block
without an `id` attribute raises `ValidationError` at construction. -/
def processBlock (message : Node) : PyResult TelegramMessage :=
  let message_id := nodeAttr message "id"
  match blockDatetime message with
  | .exn e => .exn e
  | .ok message_datetime =>
    let text_content := blockText message
    match message_id with
    | some mid => .ok { message_id := mid, datetime := message_datetime, text := text_content }
    | none => .exn "ValidationError"

/-- The extraction loop: process the blocks in order, appending each
record; the first escaping exception aborts the whole call. -/
def mapPyResult {α β : Type} (f : α → PyResult β) : List α → PyResult (List β)
  | [] => .ok []
  | b :: bs =>
    match f b with
    | .exn e => .exn e
    | .ok r =>
      match mapPyResult f bs with
      | .exn e => .exn e
      | .ok rs => .ok (r :: rs)

/-- Embedding of `parse_telegram_messages` of `src/io/parse_html.py`, over an
already-parsed document tree (the `BeautifulSoup(html_content, "lxml")`
step is the delegated external markup parser). -/
def parse_telegram_messages (doc : Node) : PyResult (List TelegramMessage) :=
  mapPyResult processBlock (messageBlocks doc)

/-! ## Concrete documents used for counterexamples and witnesses -/

/-- A document whose single matched block (a service message) lacks the
`id` attribute. -/
def docNoId : Node :=
  .elem "html" [] (nl [.elem "div" [("class", "message service")] NodeList.nil])

/-- A document with two well-formed blocks: a regular message followed
by a service message, both carrying `id` attributes. -/
def docTwoBlocks : Node :=
  .elem "html" [] (nl
    [.elem "div" [("class", "message default clearfix"), ("id", "message-2")]
       (nl [.elem "div" [("class", "text")] (nl [.text "first"])]),
     .elem "div" [("class", "message service"), ("id", "message-3")]
       (nl [.elem "div" [("class", "body details")] (nl [.text "2 January 2025"])])])

/-- The records extracted from `docTwoBlocks`. -/
def msgsTwoBlocks : List TelegramMessage :=
  [{ message_id := "message-2", datetime := none, text := "first" },
   { message_id := "message-3", datetime := none, text := "2 January 2025" }]

/-- A document with one regular-message block whose `text` div holds the
given content. -/
def docWithText (content : NodeList) : Node :=
  .elem "html" [] (nl [.elem "div" [("class", "message default clearfix"), ("id", "m1")]
    (nl [.elem "div" [("class", "text")] content])])

/-- A document with one service-message block (identifier `msg1`, no
date-details node) whose `body details` div holds one text node. -/
def docService (body : String) : Node :=
  .elem "html" [] (nl [.elem "div" [("class", "message service"), ("id", "msg1")]
    (nl [.elem "div" [("class", "body details")] (nl [.text body])])])

/-- A document with one regular-message block carrying a parseable
timestamp. -/
def docWithDate : Node :=
  .elem "html" [] (nl [.elem "div" [("class", "message default clearfix"), ("id", "m1")]
    (nl [.elem "div" [("class", "pull_right date details"),
                      ("title", "02.01.2025 18:43:24 UTC+03:00")] .nil,
         .elem "div" [("class", "text")] (nl [.text "hi"])])])

/-- The record extracted from `docWithDate`. -/
def msgWithDate : TelegramMessage :=
  { message_id := "m1",
    datetime := some { epochSec := utcSec 2025 1 2 15 43 24, tzOffsetSec := 0 },
    text := "hi" }

/-! ## Helper lemmas -/

theorem string_append_assoc (a b c : String) : a ++ b ++ c = a ++ (b ++ c) := by
  apply String.ext
  simp [String.data_append]

theorem dropWhile_append_of_ne_nil (p : Char → Bool) (l1 l2 : List Char)
    (h : l1.dropWhile p ≠ []) :
    (l1 ++ l2).dropWhile p = l1.dropWhile p ++ l2 := by
  induction l1 with
  | nil => simp at h
  | cons c cs ih =>
    by_cases hc : p c
    · simp only [List.dropWhile_cons, hc, if_true, List.cons_append] at h ⊢
      exact ih h
    · simp [List.dropWhile_cons, hc]

theorem takeDigits_append (n : Nat) (cs es ds rest : List Char)
    (h : takeDigits n cs = some (ds, rest)) :
    takeDigits n (cs ++ es) = some (ds, rest ++ es) := by
  induction n generalizing cs ds rest with
  | zero =>
    simp only [takeDigits, Option.some.injEq, Prod.mk.injEq] at h
    obtain ⟨h1, h2⟩ := h
    subst h1
    subst h2
    simp [takeDigits]
  | succ n ih =>
    cases cs with
    | nil => simp [takeDigits] at h
    | cons c cs =>
      simp only [takeDigits, List.cons_append, List.append_eq] at h ⊢
      by_cases hc : c.isDigit
      · simp only [hc, if_true] at h ⊢
        cases h2 : takeDigits n cs with
        | none => simp [h2] at h
        | some p =>
          obtain ⟨ds2, rest2⟩ := p
          simp only [h2, Option.some.injEq, Prod.mk.injEq] at h
          obtain ⟨hd, hr⟩ := h
          simp only [ih cs ds2 rest2 h2, ← hd, ← hr]
      · simp [hc] at h

theorem takeLit_append (x : Char) (cs es rest : List Char)
    (h : takeLit x cs = some rest) :
    takeLit x (cs ++ es) = some (rest ++ es) := by
  cases cs with
  | nil => simp [takeLit] at h
  | cons c cs =>
    simp only [takeLit, List.cons_append] at h ⊢
    by_cases hc : c = x
    · simp only [hc, if_true] at h ⊢
      simp only [Option.some.injEq] at h
      simp [← h]
    · simp [hc] at h

theorem takeSign_append (cs es : List Char) (sg : Char) (rest : List Char)
    (h : takeSign cs = some (sg, rest)) :
    takeSign (cs ++ es) = some (sg, rest ++ es) := by
  cases cs with
  | nil => simp [takeSign] at h
  | cons c cs =>
    simp only [takeSign, List.cons_append] at h ⊢
    by_cases hc : c = '+' || c = '-'
    · simp only [hc, if_true, Option.some.injEq, Prod.mk.injEq] at h ⊢
      obtain ⟨h1, h2⟩ := h
      simp [← h1, ← h2]
    · simp [hc] at h

theorem takeSpaces1_append (cs es rest : List Char)
    (h : takeSpaces1 cs = some rest) (hne : rest ≠ []) :
    takeSpaces1 (cs ++ es) = some (rest ++ es) := by
  cases cs with
  | nil => simp [takeSpaces1] at h
  | cons c cs =>
    simp only [takeSpaces1, List.cons_append] at h ⊢
    by_cases hc : isPySpace c
    · simp only [hc, if_true, Option.some.injEq] at h ⊢
      subst h
      exact (dropWhile_append_of_ne_nil isPySpace cs es hne).symm ▸ rfl
    · simp [hc] at h

theorem parseDateG_append (cs es : List Char) (g : List Char × List Char × List Char)
    (rest : List Char) (h : parseDateG cs = some (g, rest)) :
    parseDateG (cs ++ es) = some (g, rest ++ es) := by
  unfold parseDateG at h ⊢
  cases h1 : takeDigits 2 cs with
  | none => simp [h1] at h
  | some p1 =>
    obtain ⟨d, r1⟩ := p1
    simp only [h1] at h
    simp only [takeDigits_append 2 cs es d r1 h1]
    cases h2 : takeLit '.' r1 with
    | none => simp [h2] at h
    | some r2 =>
      simp only [h2] at h
      simp only [takeLit_append '.' r1 es r2 h2]
      cases h3 : takeDigits 2 r2 with
      | none => simp [h3] at h
      | some p3 =>
        obtain ⟨mo, r3⟩ := p3
        simp only [h3] at h
        simp only [takeDigits_append 2 r2 es mo r3 h3]
        cases h4 : takeLit '.' r3 with
        | none => simp [h4] at h
        | some r4 =>
          simp only [h4] at h
          simp only [takeLit_append '.' r3 es r4 h4]
          cases h5 : takeDigits 4 r4 with
          | none => simp [h5] at h
          | some p5 =>
            obtain ⟨y, r5⟩ := p5
            simp only [h5, Option.some.injEq, Prod.mk.injEq] at h
            obtain ⟨hg, hr⟩ := h
            simp only [takeDigits_append 4 r4 es y r5 h5, ← hg, ← hr]

theorem parseTimeG_append (cs es : List Char) (g : List Char × List Char × List Char)
    (rest : List Char) (h : parseTimeG cs = some (g, rest)) :
    parseTimeG (cs ++ es) = some (g, rest ++ es) := by
  unfold parseTimeG at h ⊢
  cases h1 : takeDigits 2 cs with
  | none => simp [h1] at h
  | some p1 =>
    obtain ⟨hh, r1⟩ := p1
    simp only [h1] at h
    simp only [takeDigits_append 2 cs es hh r1 h1]
    cases h2 : takeLit ':' r1 with
    | none => simp [h2] at h
    | some r2 =>
      simp only [h2] at h
      simp only [takeLit_append ':' r1 es r2 h2]
      cases h3 : takeDigits 2 r2 with
      | none => simp [h3] at h
      | some p3 =>
        obtain ⟨mi, r3⟩ := p3
        simp only [h3] at h
        simp only [takeDigits_append 2 r2 es mi r3 h3]
        cases h4 : takeLit ':' r3 with
        | none => simp [h4] at h
        | some r4 =>
          simp only [h4] at h
          simp only [takeLit_append ':' r3 es r4 h4]
          cases h5 : takeDigits 2 r4 with
          | none => simp [h5] at h
          | some p5 =>
            obtain ⟨s, r5⟩ := p5
            simp only [h5, Option.some.injEq, Prod.mk.injEq] at h
            obtain ⟨hg, hr⟩ := h
            simp only [takeDigits_append 2 r4 es s r5 h5, ← hg, ← hr]

theorem parseTzG_append (cs es : List Char) (g : Char × List Char × List Char)
    (rest : List Char) (h : parseTzG cs = some (g, rest)) :
    parseTzG (cs ++ es) = some (g, rest ++ es) := by
  unfold parseTzG at h ⊢
  cases h1 : takeLit 'U' cs with
  | none => simp [h1] at h
  | some r1 =>
    simp only [h1] at h
    simp only [takeLit_append 'U' cs es r1 h1]
    cases h2 : takeLit 'T' r1 with
    | none => simp [h2] at h
    | some r2 =>
      simp only [h2] at h
      simp only [takeLit_append 'T' r1 es r2 h2]
      cases h3 : takeLit 'C' r2 with
      | none => simp [h3] at h
      | some r3 =>
        simp only [h3] at h
        simp only [takeLit_append 'C' r2 es r3 h3]
        cases h4 : takeSign r3 with
        | none => simp [h4] at h
        | some p4 =>
          obtain ⟨sg, r4⟩ := p4
          simp only [h4] at h
          simp only [takeSign_append r3 es sg r4 h4]
          cases h5 : takeDigits 2 r4 with
          | none => simp [h5] at h
          | some p5 =>
            obtain ⟨zh, r5⟩ := p5
            simp only [h5] at h
            simp only [takeDigits_append 2 r4 es zh r5 h5]
            cases h6 : takeLit ':' r5 with
            | none => simp [h6] at h
            | some r6 =>
              simp only [h6] at h
              simp only [takeLit_append ':' r5 es r6 h6]
              cases h7 : takeDigits 2 r6 with
              | none => simp [h7] at h
              | some p7 =>
                obtain ⟨zm, r7⟩ := p7
                simp only [h7, Option.some.injEq, Prod.mk.injEq] at h
                obtain ⟨hg, hr⟩ := h
                simp only [takeDigits_append 2 r6 es zm r7 h7, ← hg, ← hr]

theorem parseTimeG_nil : parseTimeG [] = none := rfl

theorem parseTzG_nil : parseTzG [] = none := rfl

/-- Appending characters after a successful `re.match` leaves the match
untouched: the regex is anchored at the start only, every `\s+` run in
a successful match is terminated by a required non-space character, and
the final group is a fixed-width digit field. -/
theorem reMatchDT_append (cs es : List Char) (g : DTGroups) (rest : List Char)
    (h : reMatchDT cs = some (g, rest)) :
    reMatchDT (cs ++ es) = some (g, rest ++ es) := by
  unfold reMatchDT at h ⊢
  cases h1 : parseDateG cs with
  | none => simp [h1] at h
  | some p1 =>
    obtain ⟨⟨d, mo, y⟩, r1⟩ := p1
    simp only [h1] at h
    simp only [parseDateG_append cs es (d, mo, y) r1 h1]
    cases h2 : takeSpaces1 r1 with
    | none => simp [h2] at h
    | some r2 =>
      simp only [h2] at h
      cases h3 : parseTimeG r2 with
      | none => simp [h3] at h
      | some p3 =>
        obtain ⟨⟨hh, mi, s⟩, r3⟩ := p3
        have hr2ne : r2 ≠ [] := by
          intro hceq
          rw [hceq, parseTimeG_nil] at h3
          exact Option.noConfusion h3
        simp only [takeSpaces1_append r1 es r2 h2 hr2ne]
        simp only [h3] at h
        simp only [parseTimeG_append r2 es (hh, mi, s) r3 h3]
        cases h4 : takeSpaces1 r3 with
        | none => simp [h4] at h
        | some r4 =>
          simp only [h4] at h
          cases h5 : parseTzG r4 with
          | none => simp [h5] at h
          | some p5 =>
            obtain ⟨⟨sg, zh, zm⟩, r5⟩ := p5
            have hr4ne : r4 ≠ [] := by
              intro hceq
              rw [hceq, parseTzG_nil] at h5
              exact Option.noConfusion h5
            simp only [takeSpaces1_append r3 es r4 h4 hr4ne]
            simp only [h5, Option.some.injEq, Prod.mk.injEq] at h
            obtain ⟨hg, hr⟩ := h
            simp only [parseTzG_append r4 es (sg, zh, zm) r5 h5, ← hg, ← hr]

/-- Every record of a successful extraction comes from some processed
block. -/
theorem mapPyResult_mem {α β : Type} (f : α → PyResult β) :
    ∀ (l : List α) (rs : List β), mapPyResult f l = .ok rs →
      ∀ r ∈ rs, ∃ b ∈ l, f b = .ok r := by
  intro l
  induction l with
  | nil =>
    intro rs h r hr
    simp only [mapPyResult, PyResult.ok.injEq] at h
    subst h
    simp at hr
  | cons b bs ih =>
    intro rs h r hr
    simp only [mapPyResult] at h
    cases hfb : f b with
    | exn e => simp [hfb] at h
    | ok r0 =>
      simp only [hfb] at h
      cases hm : mapPyResult f bs with
      | exn e => simp [hm] at h
      | ok rs0 =>
        simp only [hm, PyResult.ok.injEq] at h
        subst h
        rcases List.mem_cons.mp hr with h1 | h2
        · exact ⟨b, List.mem_cons_self b bs, by rw [hfb, h1]⟩
        · obtain ⟨b2, hb2, hfb2⟩ := ih rs0 hm r h2
          exact ⟨b2, List.mem_cons_of_mem b hb2, hfb2⟩

/-- If every block processes without an exception, the loop returns one
record per block. -/
theorem mapPyResult_ok_length {α β : Type} (f : α → PyResult β) :
    ∀ l : List α, (∀ b ∈ l, (f b).isOk = true) →
      ∃ rs, mapPyResult f l = .ok rs ∧ rs.length = l.length := by
  intro l
  induction l with
  | nil => intro _; exact ⟨[], rfl, rfl⟩
  | cons b bs ih =>
    intro h
    have hb := h b (List.mem_cons_self b bs)
    cases hfb : f b with
    | exn e => rw [hfb] at hb; simp [PyResult.isOk] at hb
    | ok r =>
      obtain ⟨rs, hm, hlen⟩ := ih (fun x hx => h x (List.mem_cons_of_mem b hx))
      refine ⟨r :: rs, ?_, by simp [hlen]⟩
      simp [mapPyResult, hfb, hm]

/-- A successful loop preserves positions: the `i`-th record is the
result of processing the `i`-th block. -/
theorem mapPyResult_get {α β : Type} (f : α → PyResult β) :
    ∀ (l : List α) (rs : List β), mapPyResult f l = .ok rs →
      rs.length = l.length ∧
        ∀ (i : Nat) (hi : i < l.length) (hi2 : i < rs.length),
          f (l.get ⟨i, hi⟩) = .ok (rs.get ⟨i, hi2⟩) := by
  intro l
  induction l with
  | nil =>
    intro rs h
    simp only [mapPyResult, PyResult.ok.injEq] at h
    subst h
    exact ⟨rfl, fun i hi => by simp at hi⟩
  | cons b bs ih =>
    intro rs h
    simp only [mapPyResult] at h
    cases hfb : f b with
    | exn e => simp [hfb] at h
    | ok r0 =>
      simp only [hfb] at h
      cases hm : mapPyResult f bs with
      | exn e => simp [hm] at h
      | ok rs0 =>
        simp only [hm, PyResult.ok.injEq] at h
        subst h
        obtain ⟨hlen, hget⟩ := ih rs0 hm
        refine ⟨by simp [hlen], ?_⟩
        intro i hi hi2
        cases i with
        | zero => simpa using hfb
        | succ j =>
          have hj : j < bs.length := by simpa using hi
          have hj2 : j < rs0.length := by simpa using hi2
          simpa using hget j hj hj2

/-- When `id` is present and the date step returns normally, the block
yields exactly the record built from its three extracted fields. -/
theorem processBlock_ok (b : Node) (mid : String) (o : Option AwareDT)
    (hid : nodeAttr b "id" = some mid) (hdt : blockDatetime b = .ok o) :
    processBlock b = .ok { message_id := mid, datetime := o, text := blockText b } := by
  simp [processBlock, hid, hdt]

/-- The `datetime` field of an extracted record is exactly the outcome
of the block's date step. -/
theorem processBlock_datetime (b : Node) (m : TelegramMessage)
    (h : processBlock b = .ok m) : blockDatetime b = .ok m.datetime := by
  unfold processBlock at h
  cases hdt : blockDatetime b with
  | exn e => simp [hdt] at h
  | ok o =>
    simp only [hdt] at h
    cases hid : nodeAttr b "id" with
    | none => simp [hid] at h
    | some mid =>
      simp only [hid, PyResult.ok.injEq] at h
      rw [← h]

/-- The only aware instant `parse_datetime` ever builds carries the UTC
zone (offset 0), produced by the final `astimezone(ZoneInfo("UTC"))`. -/
theorem parse_datetime_utc_zone (s : String) (d : AwareDT)
    (h : parse_datetime s = .ok (some d)) : d.tzOffsetSec = 0 := by
  unfold parse_datetime at h
  cases hm : reMatchDT s.toList with
  | none =>
    simp only [hm] at h
    exact Option.noConfusion (PyResult.ok.inj h)
  | some gr =>
    obtain ⟨g, r⟩ := gr
    simp only [hm] at h
    cases hs : strptime_dmy_hms g.datePart g.timePart with
    | none =>
      simp only [hs] at h
      exact Option.noConfusion (PyResult.ok.inj h)
    | some nd =>
      simp only [hs] at h
      cases hh : pyInt g.tzHours with
      | none =>
        simp only [hh] at h
        exact Option.noConfusion (PyResult.ok.inj h)
      | some hv =>
        simp only [hh] at h
        cases hmv : pyInt g.tzMinutes with
        | none =>
          simp only [hmv] at h
          exact Option.noConfusion (PyResult.ok.inj h)
        | some mv =>
          simp only [hmv] at h
          by_cases hz : etcGmtZoneExists (-hv) = true
          · rw [if_pos hz] at h
            rw [← Option.some.inj (PyResult.ok.inj h)]
          · rw [if_neg hz] at h
            exact PyResult.noConfusion h

/-- A present timestamp on a block comes out of `parse_datetime` (with
a nonempty `title`), hence carries the UTC zone. -/
theorem blockDatetime_utc_zone (b : Node) (d : AwareDT)
    (h : blockDatetime b = .ok (some d)) : d.tzOffsetSec = 0 := by
  unfold blockDatetime at h
  cases hf : findFirst (isDivWithClass "pull_right date details") b with
  | none => simp [hf] at h
  | some date_div =>
    simp only [hf] at h
    by_cases he : (nodeAttr date_div "title").getD "" = ""
    · simp [he] at h
    · simp only [he, if_neg, if_false] at h
      exact parse_datetime_utc_zone _ d h

/-- A successful `\d{n}` match returns `n` digits. -/
theorem takeDigits_shape (n : Nat) : ∀ cs ds rest, takeDigits n cs = some (ds, rest) →
    ds.length = n ∧ ds.all Char.isDigit = true := by
  induction n with
  | zero =>
    intro cs ds rest h
    simp only [takeDigits, Option.some.injEq, Prod.mk.injEq] at h
    obtain ⟨h1, _⟩ := h
    subst h1
    exact ⟨rfl, rfl⟩
  | succ n ih =>
    intro cs ds rest h
    cases cs with
    | nil => simp [takeDigits] at h
    | cons c cs =>
      simp only [takeDigits] at h
      by_cases hc : c.isDigit
      · simp only [hc, if_true] at h
        cases h2 : takeDigits n cs with
        | none => simp [h2] at h
        | some p =>
          obtain ⟨ds2, rest2⟩ := p
          simp only [h2, Option.some.injEq, Prod.mk.injEq] at h
          obtain ⟨hd, _⟩ := h
          obtain ⟨hlen, hall⟩ := ih cs ds2 rest2 h2
          subst hd
          exact ⟨by simp [hlen], by simp [List.all_cons, hc, hall]⟩
      · simp [hc] at h

/-- The minutes group of the offset fragment is two digits. -/
theorem parseTzG_minutes (cs : List Char) (sg : Char) (zh zm rest : List Char)
    (h : parseTzG cs = some ((sg, zh, zm), rest)) :
    zm.length = 2 ∧ zm.all Char.isDigit = true := by
  unfold parseTzG at h
  cases h1 : takeLit 'U' cs with
  | none => simp [h1] at h
  | some r1 =>
    simp only [h1] at h
    cases h2 : takeLit 'T' r1 with
    | none => simp [h2] at h
    | some r2 =>
      simp only [h2] at h
      cases h3 : takeLit 'C' r2 with
      | none => simp [h3] at h
      | some r3 =>
        simp only [h3] at h
        cases h4 : takeSign r3 with
        | none => simp [h4] at h
        | some p4 =>
          obtain ⟨sg2, r4⟩ := p4
          simp only [h4] at h
          cases h5 : takeDigits 2 r4 with
          | none => simp [h5] at h
          | some p5 =>
            obtain ⟨zh2, r5⟩ := p5
            simp only [h5] at h
            cases h6 : takeLit ':' r5 with
            | none => simp [h6] at h
            | some r6 =>
              simp only [h6] at h
              cases h7 : takeDigits 2 r6 with
              | none => simp [h7] at h
              | some p7 =>
                obtain ⟨zm2, r7⟩ := p7
                simp only [h7, Option.some.injEq, Prod.mk.injEq] at h
                obtain ⟨⟨_, _, hzm⟩, _⟩ := h
                subst hzm
                exact takeDigits_shape 2 r6 zm2 r7 h7

/-- The `tzMinutes` group of a successful match is a two-digit string. -/
theorem reMatchDT_minutes (cs : List Char) (g : DTGroups) (rest : List Char)
    (h : reMatchDT cs = some (g, rest)) :
    ∃ zm, g.tzMinutes = String.mk zm ∧ zm.length = 2 ∧ zm.all Char.isDigit = true := by
  unfold reMatchDT at h
  cases h1 : parseDateG cs with
  | none => simp [h1] at h
  | some p1 =>
    obtain ⟨⟨d, mo, y⟩, r1⟩ := p1
    simp only [h1] at h
    cases h2 : takeSpaces1 r1 with
    | none => simp [h2] at h
    | some r2 =>
      simp only [h2] at h
      cases h3 : parseTimeG r2 with
      | none => simp [h3] at h
      | some p3 =>
        obtain ⟨⟨hh, mi, s⟩, r3⟩ := p3
        simp only [h3] at h
        cases h4 : takeSpaces1 r3 with
        | none => simp [h4] at h
        | some r4 =>
          simp only [h4] at h
          cases h5 : parseTzG r4 with
          | none => simp [h5] at h
          | some p5 =>
            obtain ⟨⟨sg, zh, zm⟩, r5⟩ := p5
            simp only [h5, Option.some.injEq, Prod.mk.injEq] at h
            obtain ⟨hg, _⟩ := h
            obtain ⟨hlen, hall⟩ := parseTzG_minutes r4 sg zh zm r5 h5
            exact ⟨zm, by rw [← hg], hlen, hall⟩

/-- Applying `int()` to a nonempty all-digit string succeeds. -/
theorem pyInt_digits (ds : List Char) (hne : ds ≠ []) (hall : ds.all Char.isDigit = true) :
    pyInt (String.mk ds) = some (digitsToNat ds : Int) := by
  cases ds with
  | nil => exact absurd rfl hne
  | cons c tl =>
    have hc : c.isDigit = true := by
      simp only [List.all_cons, Bool.and_eq_true] at hall
      exact hall.1
    have hplus : ¬(c = '+') := by
      intro he
      rw [he] at hc
      exact Bool.noConfusion hc
    have hminus : ¬(c = '-') := by
      intro he
      rw [he] at hc
      exact Bool.noConfusion hc
    simp only [pyInt, String.toList]
    rw [if_neg hplus, if_neg hminus, if_pos hall]

/-! ## Claims -/

/-- C1: the claim states that for every pattern-matching input the
result equals the naive local time minus the signed full offset
`sign * (|hours|*3600 + minutes*60)`, with
`"02.01.2025 18:43:24 UTC+03:00" ↦ 2025-01-02T15:43:24Z` and
`"02.01.2025 18:43:24 UTC-05:30" ↦ 2025-01-03T00:13:24Z`.  The code
applies only the hour component: the first example holds, but the
second input yields 2025-01-02T23:43:24Z (local time plus 5 h, the
30 offset minutes dropped), which differs from the claimed
2025-01-03T00:13:24Z. -/
theorem c1_full_offset_not_applied :
    parse_datetime "02.01.2025 18:43:24 UTC+03:00"
        = .ok (some { epochSec := utcSec 2025 1 2 15 43 24, tzOffsetSec := 0 }) ∧
    parse_datetime "02.01.2025 18:43:24 UTC-05:30"
        = .ok (some { epochSec := utcSec 2025 1 2 23 43 24, tzOffsetSec := 0 }) ∧
    utcSec 2025 1 2 23 43 24 ≠ utcSec 2025 1 3 0 13 24 := by decide

/-- C2 counterexample: a matched service block without an `id`
attribute does not produce a record — `TelegramMessage` validation
raises and the whole extraction aborts, returning no sequence at all. -/
theorem c2_missing_id_aborts_extraction :
    (messageBlocks docNoId).length = 1 ∧
    parse_telegram_messages docNoId = .exn "ValidationError" := by decide

/-- C2 amended: every matched block produces exactly one record
provided each matched block carries its identifying attribute and each
block's date step returns normally (a missing date-details node, an
empty or unparseable `title`, and an absent text source only degrade
fields); without the identifying attribute the record constructor
raises and extraction aborts. -/
theorem c2_one_record_per_block (doc : Node)
    (hid : ∀ b ∈ messageBlocks doc, (nodeAttr b "id").isSome = true)
    (hdt : ∀ b ∈ messageBlocks doc, (blockDatetime b).isOk = true) :
    ∃ msgs, parse_telegram_messages doc = .ok msgs ∧
      msgs.length = (messageBlocks doc).length := by
  unfold parse_telegram_messages
  apply mapPyResult_ok_length
  intro b hb
  have h1 := hid b hb
  have h2 := hdt b hb
  cases hi : nodeAttr b "id" with
  | none => rw [hi] at h1; simp at h1
  | some mid =>
    cases hd : blockDatetime b with
    | exn e => rw [hd] at h2; simp [PyResult.isOk] at h2
    | ok o =>
      rw [processBlock_ok b mid o hi hd]
      rfl

theorem c2_one_record_per_block_witness :
    ∃ msgs, parse_telegram_messages docTwoBlocks = .ok msgs ∧
      msgs.length = (messageBlocks docTwoBlocks).length :=
  c2_one_record_per_block docTwoBlocks (by decide) (by decide)

/-- C3: the claim states `parse_datetime` is total over all strings —
no exception ever escapes, even for inputs matching the surface
pattern with unusual offsets.  The code violates this: for the offset
hour `+15` the key `Etc/GMT-15` does not exist, and the resulting
`ZoneInfoNotFoundError` (a `KeyError`, not a `ValueError`/`TypeError`)
escapes the function. -/
theorem c3_zoneinfo_error_escapes :
    parse_datetime "01.01.2025 10:00:00 UTC+15:00" = .exn "ZoneInfoNotFoundError" := by decide

/-- C4 counterexample: the claim says any extra characters after the
pattern, or different whitespace, yield the absent value.  The code
uses `re.match` (anchored at the start only) with `\s+` separators, so
an input with trailing characters and one with widened whitespace both
parse to a present instant. -/
theorem c4_trailing_and_extra_whitespace_accepted :
    parse_datetime "02.01.2025 18:43:24 UTC+03:00 with trailing garbage"
        = .ok (some { epochSec := utcSec 2025 1 2 15 43 24, tzOffsetSec := 0 }) ∧
    parse_datetime "02.01.2025   18:43:24  UTC+03:00"
        = .ok (some { epochSec := utcSec 2025 1 2 15 43 24, tzOffsetSec := 0 }) ∧
    parse_datetime "02.01.2025 18:43:24 UTC+03:00 with trailing garbage" ≠ .ok none := by decide

/-- C4 amended: the match is anchored at the start of the string only.
Inputs on which the anchored pattern fails (wrong separators, missing
`UTC` literal, non-numeric fields, wrong digit counts, leading
characters) yield the absent value, and appending arbitrary characters
after a successful match never changes the result. -/
theorem c4_anchored_prefix_match :
    (∀ s : String, reMatchDT s.toList = none → parse_datetime s = .ok none) ∧
    (∀ s t : String, (reMatchDT s.toList).isSome = true →
      parse_datetime (s ++ t) = parse_datetime s) := by
  constructor
  · intro s h
    unfold parse_datetime
    rw [h]
  · intro s t h
    rw [Option.isSome_iff_exists] at h
    obtain ⟨gr, hm⟩ := h
    obtain ⟨g, r⟩ := gr
    have hm2 : reMatchDT (s ++ t).toList = some (g, r ++ t.toList) := by
      have hdata : (s ++ t).toList = s.toList ++ t.toList := String.data_append s t
      rw [hdata]
      exact reMatchDT_append s.toList t.toList g r hm
    unfold parse_datetime
    rw [hm, hm2]

theorem c4_anchored_prefix_match_witness :
    parse_datetime ("02.01.2025 18:43:24 UTC+03:00" ++ "xyz")
        = parse_datetime "02.01.2025 18:43:24 UTC+03:00" ∧
    parse_datetime "02.01.xxxx 18:43:24 UTC+03:00" = .ok none :=
  ⟨c4_anchored_prefix_match.2 "02.01.2025 18:43:24 UTC+03:00" "xyz" (by decide),
   c4_anchored_prefix_match.1 "02.01.xxxx 18:43:24 UTC+03:00" (by decide)⟩

/-- C5: an input that matches the surface pattern but whose
date/time fields are not calendar-valid makes `strptime` raise
`ValueError`, which the function catches and converts into the absent
value — no panic and no wraparound to another date. -/
theorem c5_invalid_calendar_returns_none (s : String) (g : DTGroups) (r : List Char)
    (hm : reMatchDT s.toList = some (g, r))
    (hbad : strptime_dmy_hms g.datePart g.timePart = none) :
    parse_datetime s = .ok none := by
  unfold parse_datetime
  simp only [hm, hbad]

theorem c5_invalid_calendar_returns_none_witness :
    parse_datetime "31.02.2025 10:00:00 UTC+00:00" = .ok none :=
  c5_invalid_calendar_returns_none "31.02.2025 10:00:00 UTC+00:00"
    { datePart := "31.02.2025", timePart := "10:00:00", tzHours := "+00", tzMinutes := "00" }
    [] (by decide) (by decide)

/-- C6: for a regular-message block with a text-body node, every
self-closing break marker becomes a literal newline, all other markup
is stripped, and all characters of the text nodes (including leading
and trailing whitespace) are preserved exactly; in particular
`hello<br/>world` extracts to `"hello\nworld"`. -/
theorem c6_br_becomes_newline_text_preserved :
    (∀ a b : String,
      parse_telegram_messages (docWithText (nl [.text a, .elem "br" [] .nil, .text b]))
        = .ok [{ message_id := "m1", datetime := none, text := a ++ "\n" ++ b }]) ∧
    (∀ s : String,
      parse_telegram_messages (docWithText (nl [.text s]))
        = .ok [{ message_id := "m1", datetime := none, text := s }]) ∧
    parse_telegram_messages
        (docWithText (nl [.text "hello", .elem "br" [] .nil, .text "world"]))
      = .ok [{ message_id := "m1", datetime := none, text := "hello\nworld" }] := by
  refine ⟨?_, ?_, by decide⟩
  · intro a b
    have h : parse_telegram_messages (docWithText (nl [.text a, .elem "br" [] .nil, .text b]))
        = .ok [{ message_id := "m1", datetime := none, text := a ++ ("\n" ++ (b ++ "")) }] := rfl
    rw [h, String.append_empty, string_append_assoc]
  · intro s
    have h : parse_telegram_messages (docWithText (nl [.text s]))
        = .ok [{ message_id := "m1", datetime := none, text := s ++ "" }] := rfl
    rw [h, String.append_empty]

theorem c6_br_becomes_newline_text_preserved_witness :
    parse_telegram_messages
        (docWithText (nl [.text "  lead ", .elem "br" [] .nil, .text " trail  "]))
      = .ok [{ message_id := "m1", datetime := none, text := "  lead " ++ "\n" ++ " trail  " }] :=
  c6_br_becomes_newline_text_preserved.1 "  lead " " trail  "

/-- C7: a successful extraction returns one record per matched block,
and the `i`-th record is the record of the `i`-th matched block in
document order, for regular and service blocks alike. -/
theorem c7_document_order (doc : Node) (msgs : List TelegramMessage)
    (h : parse_telegram_messages doc = .ok msgs) :
    msgs.length = (messageBlocks doc).length ∧
    ∀ (i : Nat) (hi : i < (messageBlocks doc).length) (hi2 : i < msgs.length),
      processBlock ((messageBlocks doc).get ⟨i, hi⟩) = .ok (msgs.get ⟨i, hi2⟩) :=
  mapPyResult_get processBlock (messageBlocks doc) msgs h

theorem c7_document_order_witness :
    msgsTwoBlocks.length = (messageBlocks docTwoBlocks).length :=
  (c7_document_order docTwoBlocks msgsTwoBlocks (by decide)).1

/-- C8: a document with one service-message block (identifier `msg1`,
no date-details node, a body-details node) yields exactly one record
with `message_id = "msg1"`, absent timestamp, and text equal to the
block's whitespace-stripped body-details text. -/
theorem c8_service_block_record (body : String) :
    parse_telegram_messages (docService body)
      = .ok [{ message_id := "msg1", datetime := none, text := pyStrip body }] := by
  have h : parse_telegram_messages (docService body)
      = .ok [{ message_id := "msg1", datetime := none, text := pyStrip body ++ "" }] := rfl
  rw [h, String.append_empty]

theorem c8_service_block_record_witness :
    parse_telegram_messages (docService "  2 January 2025  ")
      = .ok [{ message_id := "msg1", datetime := none,
               text := pyStrip "  2 January 2025  " }] :=
  c8_service_block_record "  2 January 2025  "

/-- C9: every present timestamp of an extracted record carries the UTC
zone with offset 0, never the original local offset. -/
theorem c9_timestamp_utc_normalized (doc : Node) (msgs : List TelegramMessage)
    (h : parse_telegram_messages doc = .ok msgs) (m : TelegramMessage) (hm : m ∈ msgs)
    (d : AwareDT) (hd : m.datetime = some d) : d.tzOffsetSec = 0 := by
  obtain ⟨b, hb, hfb⟩ := mapPyResult_mem processBlock (messageBlocks doc) msgs h m hm
  have h2 := processBlock_datetime b m hfb
  rw [hd] at h2
  exact blockDatetime_utc_zone b d h2

theorem c9_timestamp_utc_normalized_witness :
    ({ epochSec := utcSec 2025 1 2 15 43 24, tzOffsetSec := 0 } : AwareDT).tzOffsetSec = 0 :=
  c9_timestamp_utc_normalized docWithDate [msgWithDate] (by decide) msgWithDate (by decide)
    { epochSec := utcSec 2025 1 2 15 43 24, tzOffsetSec := 0 } (by decide)

/-- C10: the offset-minutes group never influences the result: two
pattern-matching inputs with identical date, time and offset-hour
groups parse to the same value, whatever their minutes groups are (the
computed `tz_offset` in seconds is dead code; the zone is built from
the hour group alone). -/
theorem c10_offset_minutes_no_influence (s1 s2 : String) (g1 g2 : DTGroups)
    (r1 r2 : List Char)
    (h1 : reMatchDT s1.toList = some (g1, r1)) (h2 : reMatchDT s2.toList = some (g2, r2))
    (hdate : g1.datePart = g2.datePart) (htime : g1.timePart = g2.timePart)
    (hhours : g1.tzHours = g2.tzHours) :
    parse_datetime s1 = parse_datetime s2 := by
  obtain ⟨zm1, hzm1, hlen1, hall1⟩ := reMatchDT_minutes s1.toList g1 r1 h1
  obtain ⟨zm2, hzm2, hlen2, hall2⟩ := reMatchDT_minutes s2.toList g2 r2 h2
  have hne1 : zm1 ≠ [] := by
    intro he
    rw [he] at hlen1
    exact Nat.noConfusion hlen1
  have hne2 : zm2 ≠ [] := by
    intro he
    rw [he] at hlen2
    exact Nat.noConfusion hlen2
  have hp1 : pyInt g1.tzMinutes = some (digitsToNat zm1 : Int) := by
    rw [hzm1]
    exact pyInt_digits zm1 hne1 hall1
  have hp2 : pyInt g2.tzMinutes = some (digitsToNat zm2 : Int) := by
    rw [hzm2]
    exact pyInt_digits zm2 hne2 hall2
  unfold parse_datetime
  simp only [h1, h2, hdate, htime, hhours, hp1, hp2]
  cases strptime_dmy_hms g2.datePart g2.timePart with
  | none => rfl
  | some nd =>
    cases pyInt g2.tzHours with
    | none => rfl
    | some hv => rfl

theorem c10_offset_minutes_no_influence_witness :
    parse_datetime "02.01.2025 18:43:24 UTC-05:30"
      = parse_datetime "02.01.2025 18:43:24 UTC-05:00" :=
  c10_offset_minutes_no_influence
    "02.01.2025 18:43:24 UTC-05:30" "02.01.2025 18:43:24 UTC-05:00"
    { datePart := "02.01.2025", timePart := "18:43:24", tzHours := "-05", tzMinutes := "30" }
    { datePart := "02.01.2025", timePart := "18:43:24", tzHours := "-05", tzMinutes := "00" }
    [] [] (by decide) (by decide) rfl rfl rfl
